import Mathlib

/-
Shallow embedding of the Trade gateway (app/token_store.py, app/services/kotak.py,
app/workers/auto_sell.py).  JSON payloads are modelled by the inductive `JVal`
(Python `None` is `jnull`; Python bools are kept separate because `bool` is an
`int` subclass where that matters).  Numbers are modelled by `Rat`: the claims
under study only involve values where binary floating point is exact, and the
spec speaks of plain decimal rounding.  Python exceptions are modelled by
`Except`; dictionaries by association lists looked up at the first occurrence.
-/

namespace Trade

/-- JSON-like runtime value as produced by `resp.json()` in the Python client. -/
inductive JVal where
  | jnull : JVal
  | jbool : Bool → JVal
  | jnum : ℚ → JVal
  | jstr : String → JVal
  | jarr : List JVal → JVal
  | jobj : List (String × JVal) → JVal

/-- Python truthiness (`bool(v)`): `None`, `False`, `0`, empty string, empty
list and empty dict are falsy; everything else is truthy. -/
def jTruthy : JVal → Bool
  | .jnull => false
  | .jbool b => b
  | .jnum q => if q = 0 then false else true
  | .jstr s => if s = "" then false else true
  | .jarr xs => if xs.isEmpty then false else true
  | .jobj fs => if fs.isEmpty then false else true

/-- Python `a or b` on values (returns `a` when truthy, else `b`). -/
def pyOrJ (a b : JVal) : JVal := if jTruthy a then a else b

/-- First binding of `key` in an association-list dictionary. -/
def dictFind : List (String × JVal) → String → Option JVal
  | [], _ => none
  | (k, v) :: rest, key => if k = key then some v else dictFind rest key

/-- Python `d.get(key)`: the bound value, or `None` when the key is absent. -/
def pyGet (d : List (String × JVal)) (key : String) : JVal :=
  (dictFind d key).getD .jnull

/-- Python `d.get(key, dflt)`: a key bound to `None` still yields `None`. -/
def pyGetD (d : List (String × JVal)) (key : String) (dflt : JVal) : JVal :=
  (dictFind d key).getD dflt

/-- Digits-only parse of a character list, as the integral pieces accepted by
Python numeric conversion. -/
def parseDigits (cs : List Char) : Option ℕ :=
  if cs.isEmpty then none
  else if cs.all Char.isDigit then
    some (cs.foldl (fun a c => a * 10 + (c.toNat - 48)) 0)
  else none

/-- Python `float(s)` on plain signed decimal literals (an optional sign, then
digits with an optional decimal point); other strings raise, modelled as
`none`. -/
def pyFloatOfStr (s : String) : Option ℚ :=
  let cs := s.data
  let signed : ℚ × List Char :=
    match cs with
    | '-' :: r => (-1, r)
    | '+' :: r => (1, r)
    | r => (1, r)
  let sign := signed.1
  let body := signed.2
  let ip := body.takeWhile (fun c => c ≠ '.')
  let rest := body.dropWhile (fun c => c ≠ '.')
  match rest with
  | [] => (parseDigits ip).map (fun n => sign * n)
  | _ :: fp =>
    if fp.any (fun c => c = '.') then none
    else if ip.isEmpty && fp.isEmpty then none
    else
      match (if ip.isEmpty then some 0 else parseDigits ip),
            (if fp.isEmpty then some 0 else parseDigits fp) with
      | some n, some f => some (sign * ((n : ℚ) + (f : ℚ) / (10 : ℚ) ^ fp.length))
      | _, _ => none

/-- Python `int(s)` on signed decimal integer literals; other strings raise. -/
def pyIntOfStr (s : String) : Option ℤ :=
  let cs := s.data
  match cs with
  | '-' :: r => (parseDigits r).map (fun n => -(n : ℤ))
  | '+' :: r => (parseDigits r).map (fun n => (n : ℤ))
  | r => (parseDigits r).map (fun n => (n : ℤ))

/-- Truncation toward zero, as Python `int(float)`. -/
def truncToZero (q : ℚ) : ℤ := if 0 ≤ q then ⌊q⌋ else ⌈q⌉

/-- Python `float(v)` on a runtime value: numbers pass through, bools coerce
to 0/1, strings are parsed; lists, dicts and `None` raise (`none`). -/
def jToFloat : JVal → Option ℚ
  | .jnum q => some q
  | .jbool b => some (if b then 1 else 0)
  | .jstr s => pyFloatOfStr s
  | _ => none

/-- Python `int(v)` on a runtime value: floats truncate toward zero, bools
coerce, strings must be integer literals; anything else raises. -/
def jToInt : JVal → Option ℤ
  | .jnum q => some (truncToZero q)
  | .jbool b => some (if b then 1 else 0)
  | .jstr s => pyIntOfStr s
  | _ => none

/-- Nearest integer with ties to even, the rounding used by Python `round`. -/
def roundHalfEven (q : ℚ) : ℤ :=
  let f := ⌊q⌋
  let r := q - (f : ℚ)
  if r < 1 / 2 then f
  else if 1 / 2 < r then f + 1
  else if f % 2 = 0 then f else f + 1

/-- Python `round(x, 2)` on exact decimal arithmetic. -/
def round2 (q : ℚ) : ℚ := ((roundHalfEven (q * 100) : ℚ)) / 100

/-! ## TokenStore (app/token_store.py)

The class-level `_tokens` dict maps a name to `{"value": v, "expiry": e}`;
it is modelled as an association list of `(name, value, expiry)` with unique
keys.  `time.time()` is passed explicitly as `now`.  The `asyncio.Lock`
serialises every operation, so each operation is a pure state transformer. -/

namespace TokenStore

/-- Store state: one entry per name. -/
def Store := List (String × String × ℚ)

/-- The stored expiry, `expiry or (time.time() + 3600)`: a missing or zero
(falsy) expiry becomes `now + 3600`. -/
def effExpiry (expiry : Option ℚ) (now : ℚ) : ℚ :=
  match expiry with
  | some v => if v = 0 then now + 3600 else v
  | none => now + 3600

/-- `TokenStore.set_token`: stores/overwrites the entry for `name`. -/
def set_token (st : Store) (name value : String) (expiry : Option ℚ) (now : ℚ) : Store :=
  (name, value, effExpiry expiry now) :: st.filter (fun kv => kv.1 ≠ name)

/-- Lookup of the raw entry, `cls._tokens.get(name)`. -/
def find (st : Store) (name : String) : Option (String × ℚ) :=
  match st with
  | [] => none
  | (k, v) :: rest => if k = name then some v else find rest name

/-- `TokenStore.get_token`: `None` when missing, `None` when
`token["expiry"] and token["expiry"] < time.time()`, else the value. -/
def get_token (st : Store) (name : String) (now : ℚ) : Option String :=
  match find st name with
  | none => none
  | some (v, e) => if e ≠ 0 ∧ e < now then none else some v

end TokenStore

/-! ## KotakClient configuration and auth headers (app/services/kotak.py) -/

/-- The module-level environment configuration read at import time
(`KOTAK_AUTH_MODE` is already lowercased there). -/
structure KotakEnv where
  auth_mode : String
  api_key : String
  access_token : String
  internal_key : String
  client_code : String
deriving DecidableEq

namespace KotakClient

/-- Headers present on every request before auth dispatch. -/
def baseHeaders : List (String × String) :=
  [("accept", "application/json"), ("content-type", "application/json")]

/-- Appends `x-client-code` when `KOTAK_CLIENT_CODE` is configured (non-empty). -/
def withClientCode (e : KotakEnv) (hs : List (String × String)) : List (String × String) :=
  if e.client_code = "" then hs else hs ++ [("x-client-code", e.client_code)]

/-- `KotakClient._auth_headers`: emits the selected mode header, raising
(`HTTPException(500, ...)`, modelled as `Except.error` with the detail) when
the selected credential is empty or the mode is unknown. -/
def auth_headers (e : KotakEnv) : Except String (List (String × String)) :=
  if e.auth_mode = "apikey" then
    if e.api_key = "" then .error "KOTAK_API_KEY not set but KOTAK_AUTH_MODE=apikey"
    else .ok (withClientCode e (baseHeaders ++ [("apikey", e.api_key)]))
  else if e.auth_mode = "bearer" then
    if e.access_token = "" then .error "KOTAK_ACCESS_TOKEN not set but KOTAK_AUTH_MODE=bearer"
    else .ok (withClientCode e (baseHeaders ++ [("authorization", "Bearer " ++ e.access_token)]))
  else if e.auth_mode = "internal" then
    if e.internal_key = "" then .error "KOTAK_INTERNAL_KEY not set but KOTAK_AUTH_MODE=internal"
    else .ok (withClientCode e (baseHeaders ++ [("Internal-Key", e.internal_key)]))
  else .error ("Unknown KOTAK_AUTH_MODE=" ++ e.auth_mode)

/-- Does a header list carry the given header name? -/
def hasHeader (hs : List (String × String)) (name : String) : Bool :=
  hs.any (fun h => h.1 = name)

/-- The three mode-specific auth header names. -/
def authHeaderNames : List String := ["apikey", "authorization", "Internal-Key"]

/-- The auth header names actually present, in canonical order. -/
def emittedAuth (hs : List (String × String)) : List String :=
  authHeaderNames.filter (fun n => hasHeader hs n)

/-- The header name belonging to a recognised mode. -/
def modeHeader : String → String
  | "apikey" => "apikey"
  | "bearer" => "authorization"
  | "internal" => "Internal-Key"
  | _ => ""

/-- The configuration is accepted exactly when a recognised mode carries a
non-empty credential. -/
def goodConfig (e : KotakEnv) : Bool :=
  (e.auth_mode = "apikey" && e.api_key ≠ "") ||
  (e.auth_mode = "bearer" && e.access_token ≠ "") ||
  (e.auth_mode = "internal" && e.internal_key ≠ "")

/-- `KotakClient._attempts`: ordered probe attempts, one for a bearer token,
two for an API key (header `apikey` and header `x-api-key`), one for an
internal key, each tagged; `x-client-code` is appended to every attempt when a
client code is configured. -/
def attempts (e : KotakEnv) : List (String × List (String × String)) :=
  let l1 :=
    if e.access_token = "" then []
    else [("bearer", baseHeaders ++ [("authorization", "Bearer " ++ e.access_token)])]
  let l2 :=
    if e.api_key = "" then []
    else [("apikey", baseHeaders ++ [("apikey", e.api_key)]),
          ("x-api-key", baseHeaders ++ [("x-api-key", e.api_key)])]
  let l3 :=
    if e.internal_key = "" then []
    else [("Internal-Key", baseHeaders ++ [("Internal-Key", e.internal_key)])]
  let all := l1 ++ l2 ++ l3
  if e.client_code = "" then all
  else all.map (fun a => (a.1, a.2 ++ [("x-client-code", e.client_code)]))

/-! ### Funds extraction (`KotakClient._extract_funds_value`) -/

/-- The ordered candidate field names tried by `_extract_funds_value`. -/
def fundKeys : List String :=
  ["available", "availableCash", "cash", "netAvailable", "netCash", "limit"]

/-- `isinstance(v, (int, float, str))`: Python bools are ints. -/
def fundEligible : JVal → Bool
  | .jnum _ => true
  | .jbool _ => true
  | .jstr _ => true
  | _ => false

/-- First candidate key bound in the dict to a value of an eligible type
(`if k in data and isinstance(data[k], (int, float, str))`). -/
def scanFund : List String → List (String × JVal) → Option JVal
  | [], _ => none
  | k :: ks, fs =>
    match dictFind fs k with
    | some v => if fundEligible v then some v else scanFund ks fs
    | none => scanFund ks fs

/-- The first eligible candidate value of the dict payload, scanning the top
level, then under a `data` dict, then under a `limits` dict, in that order. -/
def fundsCandidate (fs : List (String × JVal)) : Option JVal :=
  match scanFund fundKeys fs with
  | some v => some v
  | none =>
    match
      (match dictFind fs "data" with
       | some (.jobj dfs) => scanFund fundKeys dfs
       | _ => none) with
    | some v => some v
    | none =>
      match dictFind fs "limits" with
      | some (.jobj lfs) => scanFund fundKeys lfs
      | _ => none

/-- `KotakClient._extract_funds_value`: a bare number (or bool) converts
directly; a dict is scanned at the top level, then under `data`, then under
`limits`, and the first eligible hit is converted with `float` — a
conversion failure aborts (the surrounding `try` turns it into the shape
error rather than moving to the next location).  Any other payload raises
`HTTPException(500, ...)` naming the payload, modelled as `.error` carrying
the payload itself. -/
def extract_funds_value (data : JVal) : Except JVal ℚ :=
  match data with
  | .jnum q => .ok q
  | .jbool b => .ok (if b then 1 else 0)
  | .jobj fs =>
    match fundsCandidate fs with
    | some v => match jToFloat v with | some q => .ok q | none => .error data
    | none => .error data
  | _ => .error data

/-! ### Order normalization (`KotakClient.place_order`) -/

/-- Is the runtime value Python `None`? -/
def jIsNull : JVal → Bool
  | .jnull => true
  | _ => false

/-- The wire payload built by `KotakClient.place_order` from a payload source
dict: synonym pairs are collapsed with Python `or`
(`transaction_type or side`, `quantity or qty`), the canonical keys are laid
out in a fixed order, and bindings whose value is `None` are stripped
(`{k: v for k, v in payload.items() if v is not None}`). -/
def normalize_order (src : List (String × JVal)) : List (String × JVal) :=
  let txn := pyOrJ (pyGet src "transaction_type") (pyGet src "side")
  let qty := pyOrJ (pyGet src "quantity") (pyGet src "qty")
  let payload : List (String × JVal) :=
    [("symbol", pyGet src "symbol"),
     ("exchange", pyGet src "exchange"),
     ("productType", pyGet src "product"),
     ("transactionType", txn),
     ("quantity", qty),
     ("price", pyGet src "price"),
     ("orderType", pyGet src "order_type"),
     ("validity", pyGet src "validity"),
     ("disclosedQuantity", pyGetD src "disclosed_quantity" (.jnum 0)),
     ("triggerPrice", pyGet src "trigger_price"),
     ("tag", pyGet src "tag")]
  payload.filter (fun kv => !jIsNull kv.2)

/-- The canonical key set of the outbound order payload. -/
def canonicalOrderKeys : List String :=
  ["symbol", "exchange", "productType", "transactionType", "quantity", "price",
   "orderType", "validity", "disclosedQuantity", "triggerPrice", "tag"]

/-- Did the `Except`-modelled call succeed? -/
def isOkE (r : Except String (List (String × String))) : Bool :=
  match r with
  | .ok _ => true
  | .error _ => false

/-- A source dict free of both synonym-pair field names, so that adding one
synonym or the other is the only difference between two inputs. -/
def noSynonymKeys (d : List (String × JVal)) : Prop :=
  dictFind d "transaction_type" = none ∧ dictFind d "side" = none
    ∧ dictFind d "quantity" = none ∧ dictFind d "qty" = none

/-- Order input carrying quantity 0 in the canonical `quantity` field. -/
def srcQuantityZero : List (String × JVal) := [("symbol", .jstr "X"), ("quantity", .jnum 0)]

/-- Order input carrying quantity 0 in the synonym `qty` field. -/
def srcQtyZero : List (String × JVal) := [("symbol", .jstr "X"), ("qty", .jnum 0)]

/-- A bearer-mode configuration with only an access token. -/
def envBearer : KotakEnv := ⟨"bearer", "", "tok", "", ""⟩

/-- A configuration in which the API key is the only credential present. -/
def envApiOnly : KotakEnv := ⟨"apikey", "k", "", "", ""⟩

/-- A configuration with all three credentials and a client code. -/
def envAllCreds : KotakEnv := ⟨"bearer", "k", "t", "i", "CC"⟩

/-- The number of credential types currently present. -/
def credTypesPresent (e : KotakEnv) : ℕ :=
  (if e.access_token = "" then 0 else 1) + (if e.api_key = "" then 0 else 1)
    + (if e.internal_key = "" then 0 else 1)

end KotakClient

/-! ## AutoSellWorker (app/workers/auto_sell.py)

`run` loops forever; one iteration reads `self.enabled` and `self.y`, fetches
positions, normalizes the response shape, and places one LIMIT SELL per
resolvable position.  The whole iteration body sits in `try ... except
Exception`, so an exception anywhere in the body only ends that iteration.
The outside world of one iteration is: the fetch outcome (a parsed payload or
a raised error) and, for each `place_order` call in turn, whether it raises. -/

namespace AutoSellWorker

/-- Outcome of `await self.k.get_positions()`: a parsed payload, or a raised
exception (network failure, auth failure, non-success HTTP status). -/
inductive FetchResult where
  | ok (resp : JVal) : FetchResult
  | err : FetchResult

/-- Environment of one iteration: the fetch outcome and, indexed by the order
of the `place_order` calls made during the iteration, whether each succeeds. -/
structure IterEnv where
  fetch : FetchResult
  submit : ℕ → Bool

/-- One `place_order` call as issued by the worker. -/
structure Order where
  symbol : JVal
  side : String
  qty : ℤ
  order_type : String
  price : ℚ

/-- Response-shape normalization of the positions payload: a `data` key of a
dict replaces the payload, then anything that is not a list becomes `[]`. -/
def normalize_positions (resp : JVal) : List JVal :=
  match resp with
  | .jarr xs => xs
  | .jobj fs =>
    match dictFind fs "data" with
    | some (.jarr xs) => xs
    | _ => []
  | _ => []

/-- Resolved symbol: `p.get("symbol") or p.get("tradingsymbol")`. -/
def resolvedSymbol (fs : List (String × JVal)) : JVal :=
  pyOrJ (pyGet fs "symbol") (pyGet fs "tradingsymbol")

/-- Resolved quantity: `p.get("qty") or p.get("quantity") or 0`. -/
def resolvedQty (fs : List (String × JVal)) : JVal :=
  pyOrJ (pyOrJ (pyGet fs "qty") (pyGet fs "quantity")) (.jnum 0)

/-- Resolved buy price:
`p.get("buy_price") or p.get("avgPrice") or p.get("avg_buy_price")`. -/
def resolvedBuy (fs : List (String × JVal)) : JVal :=
  pyOrJ (pyOrJ (pyGet fs "buy_price") (pyGet fs "avgPrice")) (pyGet fs "avg_buy_price")

/-- Processing of one position `p` with threshold `y`:
`.ok none` when the truthiness guard skips it, `.ok (some o)` when a LIMIT
SELL at `round(buy + y, 2)` is submitted, `.error ()` when the body raises
(`p` is not a dict so `p.get` fails, or `float`/`int` conversion fails). -/
def processPosition (y : ℚ) (p : JVal) : Except Unit (Option Order) :=
  match p with
  | .jobj fs =>
    if jTruthy (resolvedSymbol fs) && jTruthy (resolvedQty fs) && jTruthy (resolvedBuy fs) then
      match jToFloat (resolvedBuy fs), jToInt (resolvedQty fs) with
      | some b, some q =>
        .ok (some { symbol := resolvedSymbol fs, side := "SELL", qty := q,
                    order_type := "LIMIT", price := round2 (b + y) })
      | _, _ => .error ()
    else .ok none
  | _ => .error ()

/-- The position loop: emits the orders actually submitted, in order, and
whether the iteration body raised; a raised exception cuts the loop short but
keeps the orders already submitted (a failing `place_order` call is still a
submission attempt and is kept in the trace). -/
def runPositions (y : ℚ) (submit : ℕ → Bool) : List JVal → ℕ → List Order × Bool
  | [], _ => ([], false)
  | p :: ps, k =>
    match processPosition y p with
    | .error _ => ([], true)
    | .ok none => runPositions y submit ps k
    | .ok (some o) =>
      if submit k then
        let r := runPositions y submit ps (k + 1)
        (o :: r.1, r.2)
      else ([o], true)

/-- One iteration of `AutoSellWorker.run`: when disabled nothing happens;
when enabled the positions are fetched (a raised fetch ends the iteration
with no orders), normalized and processed. -/
def runIteration (enabled : Bool) (y : ℚ) (env : IterEnv) : List Order × Bool :=
  if enabled then
    match env.fetch with
    | .err => ([], true)
    | .ok resp => runPositions y env.submit (normalize_positions resp) 0
  else ([], false)

/-- One scheduled iteration: the configuration read at its start
(`self.enabled`, `self.y`) and its environment. -/
structure Step where
  enabled : Bool
  y : ℚ
  env : IterEnv

/-- The loop over a finite schedule of iterations: `while True` with the
per-iteration `try ... except Exception` that swallows every error and
proceeds to the next sleep. -/
def runLoop : List Step → List (List Order × Bool)
  | [] => []
  | s :: rest => runIteration s.enabled s.y s.env :: runLoop rest

/-- The order a position yields in an error-free pass, if any. -/
def positionOrder (y : ℚ) (p : JVal) : Option Order :=
  match processPosition y p with
  | .ok (some o) => some o
  | _ => none

/-- The position sampled by the spec's auto-sell scenario. -/
def tcsPosition : JVal :=
  .jobj [("symbol", .jstr "TCS"), ("qty", .jnum 10), ("avgPrice", .jnum 100)]

/-- Iteration environment of the scenario: fetch succeeds with the single
unchanged position and every order submission succeeds. -/
def tcsEnv : IterEnv := ⟨.ok (.jarr [tcsPosition]), fun _ => true⟩

/-- A scheduled iteration of the scenario with `enabled = true`, `y = 2`. -/
def tcsStep : Step := ⟨true, 2, tcsEnv⟩

/-- The LIMIT SELL the scenario must submit each iteration. -/
def tcsOrder : Order := ⟨.jstr "TCS", "SELL", 10, "LIMIT", 102⟩

/-- Does the positions payload have one of the two accepted list shapes
(a bare list, or a list under a `data` key)? -/
def listShaped (r : JVal) : Bool :=
  match r with
  | .jarr _ => true
  | .jobj fs =>
    match dictFind fs "data" with
    | some (.jarr _) => true
    | _ => false
  | _ => false

end AutoSellWorker

end Trade

namespace Trade

namespace AutoSellWorker

lemma runPositions_eq_filterMap (y : ℚ) (submit : ℕ → Bool)
    (hsub : ∀ n, submit n = true) :
    ∀ (ps : List JVal) (k : ℕ), (∀ p ∈ ps, processPosition y p ≠ .error ()) →
      runPositions y submit ps k = (ps.filterMap (positionOrder y), false) := by
  intro ps
  induction ps with
  | nil => intro k _; rfl
  | cons p ps ih =>
    intro k hok
    rcases hp : processPosition y p with e | op
    · cases e
      exact absurd hp (hok p (List.mem_cons_self p ps))
    · rcases op with _ | o
      · have := ih k (fun q hq => hok q (List.mem_cons_of_mem p hq))
        simp [runPositions, hp, this, List.filterMap_cons, positionOrder]
      · have := ih (k + 1) (fun q hq => hok q (List.mem_cons_of_mem p hq))
        simp [runPositions, hp, hsub k, this, List.filterMap_cons, positionOrder]

lemma round2_102 : round2 ((100 : ℚ) + 2) = 102 := by
  unfold round2 roundHalfEven
  norm_num

lemma processPosition_tcs : processPosition 2 tcsPosition = .ok (some tcsOrder) := by
  have h : processPosition 2 tcsPosition =
      .ok (some { symbol := .jstr "TCS", side := "SELL", qty := 10,
                  order_type := "LIMIT", price := round2 ((100 : ℚ) + 2) }) := rfl
  rw [h, round2_102]
  rfl

lemma runIteration_tcs : runIteration true 2 tcsEnv = ([tcsOrder], false) := by
  have h : runIteration true 2 tcsEnv = runPositions 2 (fun _ => true) [tcsPosition] 0 := rfl
  rw [h]
  simp [runPositions, processPosition_tcs]

/-- Claim C1: in every enabled iteration whose fetch succeeds, whose position
processing raises nothing and whose submissions all go through, the worker
submits exactly the orders of the resolvable positions, one per position;
every such order is a LIMIT SELL for the resolved quantity at price
`round2 (buy + y)`; and in the spec scenario (`y = 2`, one unchanged
position TCS/10/100) every iteration of the loop submits exactly one LIMIT
SELL for quantity 10 at price 102. -/
theorem enabled_iteration_one_limit_sell_per_position :
    (∀ (y : ℚ) (resp : JVal) (env : IterEnv),
      env.fetch = .ok resp →
      (∀ n, env.submit n = true) →
      (∀ p ∈ normalize_positions resp, processPosition y p ≠ .error ()) →
      runIteration true y env =
        ((normalize_positions resp).filterMap (positionOrder y), false))
    ∧ (∀ (y : ℚ) (fs : List (String × JVal)) (o : Order),
        positionOrder y (.jobj fs) = some o →
        o.side = "SELL" ∧ o.order_type = "LIMIT"
          ∧ jToInt (resolvedQty fs) = some o.qty
          ∧ ∃ b, jToFloat (resolvedBuy fs) = some b ∧ o.price = round2 (b + y))
    ∧ (∀ n : ℕ, runLoop (List.replicate n tcsStep) =
        List.replicate n ([tcsOrder], false)) := by
  refine ⟨?_, ?_, ?_⟩
  · intro y resp env hf hs hok
    have h : runIteration true y env =
        (match env.fetch with
         | .err => (([] : List Order), true)
         | .ok resp => runPositions y env.submit (normalize_positions resp) 0) := rfl
    rw [h, hf]
    exact runPositions_eq_filterMap y env.submit hs _ 0 hok
  · intro y fs o h
    simp only [positionOrder] at h
    split at h
    next o2 heq =>
      simp only [processPosition] at heq
      split at heq
      · split at heq
        next b q hb hq =>
          rw [Option.some_inj] at h
          cases heq
          cases h
          exact ⟨rfl, rfl, hq, b, hb, rfl⟩
        next hne => cases heq
      · cases heq
    next hne => cases h
  · intro n
    induction n with
    | zero => rfl
    | succ m ih =>
      have h : runIteration tcsStep.enabled tcsStep.y tcsStep.env = ([tcsOrder], false) :=
        runIteration_tcs
      simp [List.replicate, runLoop, h, ih]

/-- Claim C1 witness: one enabled iteration on the unchanged TCS position
submits the single LIMIT SELL for quantity 10 at price 102, and two scheduled
iterations submit it twice. -/
theorem enabled_iteration_one_limit_sell_per_position_witness :
    runIteration true 2 tcsEnv = ([tcsOrder], false)
    ∧ runLoop [tcsStep, tcsStep] = [([tcsOrder], false), ([tcsOrder], false)] := by
  constructor
  · have hok : ∀ p ∈ normalize_positions (.jarr [tcsPosition]),
        processPosition 2 p ≠ .error () := by
      intro p hp
      have hp2 : p = tcsPosition := List.mem_singleton.mp hp
      subst hp2
      rw [processPosition_tcs]
      simp
    have h := enabled_iteration_one_limit_sell_per_position.1
      2 (.jarr [tcsPosition]) tcsEnv rfl (fun _ => rfl) hok
    rw [h]
    simp [normalize_positions, positionOrder, processPosition_tcs]
  · exact enabled_iteration_one_limit_sell_per_position.2.2 2

/-- Claim C2: in every iteration in which the configuration is disabled, no
order is submitted (and no error escapes), regardless of the broker
response; over a whole schedule of disabled iterations, the loop trace has
no orders at all. -/
theorem disabled_iteration_no_orders :
    (∀ (y : ℚ) (env : IterEnv), runIteration false y env = ([], false))
    ∧ (∀ steps : List Step, (∀ s ∈ steps, s.enabled = false) →
        ∀ r ∈ runLoop steps, r.1 = ([] : List Order)) := by
  constructor
  · intro y env; rfl
  · intro steps
    induction steps with
    | nil => intro _ r hr; cases hr
    | cons s rest ih =>
      intro hdis r hr
      rcases List.mem_cons.mp hr with hr1 | hr1
      · subst hr1
        rw [hdis s (List.mem_cons_self s rest)]
        rfl
      · exact ih (fun t ht => hdis t (List.mem_cons_of_mem s ht)) r hr1

/-- Claim C2 witness: a disabled iteration over a live position submits
nothing, both directly and as the sole entry of a one-step disabled
schedule. -/
theorem disabled_iteration_no_orders_witness :
    runIteration false 2 tcsEnv = ([], false)
    ∧ (runIteration false 2 tcsEnv).1 = [] := by
  constructor
  · exact disabled_iteration_no_orders.1 2 tcsEnv
  · exact disabled_iteration_no_orders.2 [⟨false, 2, tcsEnv⟩]
      (by intro s hs; rw [List.mem_singleton.mp hs])
      (runIteration false 2 tcsEnv) (List.mem_singleton.mpr rfl)

/-- Claim C3: every per-iteration error is absorbed: the loop trace covers
every scheduled iteration, each entry is exactly that iteration run in its
own environment (errors in earlier iterations never change or suppress later
ones), and an iteration placed between two schedules leaves both surrounding
sub-traces intact even when it fails. -/
theorem loop_absorbs_iteration_errors :
    (∀ steps : List Step,
      (runLoop steps).length = steps.length
      ∧ ∀ i : ℕ, (runLoop steps).get? i =
          (steps.get? i).map (fun s => runIteration s.enabled s.y s.env))
    ∧ (∀ (pre : List Step) (s : Step) (post : List Step),
        runLoop (pre ++ s :: post) =
          runLoop pre ++ runIteration s.enabled s.y s.env :: runLoop post) := by
  constructor
  · intro steps
    induction steps with
    | nil => exact ⟨rfl, fun i => rfl⟩
    | cons s rest ih =>
      refine ⟨by simp [runLoop, ih.1], fun i => ?_⟩
      cases i with
      | zero => rfl
      | succ j => simpa [runLoop] using ih.2 j
  · intro pre s post
    induction pre with
    | nil => rfl
    | cons t rest ih => simp [runLoop, ih]

lemma jTruthy_pyOrJ (a b : JVal) : jTruthy (pyOrJ a b) = (jTruthy a || jTruthy b) := by
  by_cases h : jTruthy a = true
  · simp [pyOrJ, h]
  · have h2 : jTruthy a = false := by simpa using h
    simp [pyOrJ, h2]

lemma jTruthy_pyGet_falsy (fs : List (String × JVal)) (k : String)
    (h : ∀ v, dictFind fs k = some v → jTruthy v = false) :
    jTruthy (pyGet fs k) = false := by
  unfold pyGet
  cases hd : dictFind fs k with
  | none => rfl
  | some v => simpa using h v hd

/-- Claim C10: a position whose quantity is zero, whose average buy price is
zero, or whose symbol is an empty string is skipped with no order: the
worker tests the resolved fields for truthiness, and a synonym chain all of
whose present bindings are falsy (zero quantity or price, empty symbol)
resolves to a falsy value, so zero values behave exactly like missing
fields. -/
theorem falsy_position_fields_skipped :
    (∀ (y : ℚ) (fs : List (String × JVal)),
      (jTruthy (resolvedSymbol fs) = false ∨ jTruthy (resolvedQty fs) = false
        ∨ jTruthy (resolvedBuy fs) = false) →
      processPosition y (.jobj fs) = .ok none)
    ∧ (∀ fs : List (String × JVal),
        (∀ v, dictFind fs "qty" = some v → jTruthy v = false) →
        (∀ v, dictFind fs "quantity" = some v → jTruthy v = false) →
        jTruthy (resolvedQty fs) = false)
    ∧ (∀ fs : List (String × JVal),
        (∀ v, dictFind fs "buy_price" = some v → jTruthy v = false) →
        (∀ v, dictFind fs "avgPrice" = some v → jTruthy v = false) →
        (∀ v, dictFind fs "avg_buy_price" = some v → jTruthy v = false) →
        jTruthy (resolvedBuy fs) = false)
    ∧ (∀ fs : List (String × JVal),
        (∀ v, dictFind fs "symbol" = some v → jTruthy v = false) →
        (∀ v, dictFind fs "tradingsymbol" = some v → jTruthy v = false) →
        jTruthy (resolvedSymbol fs) = false) := by
  refine ⟨?_, ?_, ?_, ?_⟩
  · intro y fs h
    rcases h with h | h | h <;> simp [processPosition, h]
  · intro fs hq1 hq2
    simp only [resolvedQty]
    rw [jTruthy_pyOrJ, jTruthy_pyOrJ, jTruthy_pyGet_falsy fs "qty" hq1,
      jTruthy_pyGet_falsy fs "quantity" hq2]
    rfl
  · intro fs hb1 hb2 hb3
    simp only [resolvedBuy]
    rw [jTruthy_pyOrJ, jTruthy_pyOrJ, jTruthy_pyGet_falsy fs "buy_price" hb1,
      jTruthy_pyGet_falsy fs "avgPrice" hb2, jTruthy_pyGet_falsy fs "avg_buy_price" hb3]
    rfl
  · intro fs hs1 hs2
    simp only [resolvedSymbol]
    rw [jTruthy_pyOrJ, jTruthy_pyGet_falsy fs "symbol" hs1,
      jTruthy_pyGet_falsy fs "tradingsymbol" hs2]
    rfl

/-- Claim C10 witness: the three central positions — `qty: 0` in the raw
field, `avgPrice: 0` in the raw field, `symbol: ""` in the raw field, each
otherwise valid — are all skipped, and the zero buy price makes the resolved
buy price falsy. -/
theorem falsy_position_fields_skipped_witness :
    processPosition 2
      (.jobj [("symbol", .jstr "TCS"), ("qty", .jnum 0), ("avgPrice", .jnum 100)])
      = .ok none
    ∧ processPosition 2
        (.jobj [("symbol", .jstr "TCS"), ("qty", .jnum 10), ("avgPrice", .jnum 0)])
        = .ok none
    ∧ processPosition 2
        (.jobj [("symbol", .jstr ""), ("qty", .jnum 10), ("avgPrice", .jnum 100)])
        = .ok none
    ∧ jTruthy (resolvedBuy [("symbol", .jstr "TCS"), ("qty", .jnum 10),
        ("avgPrice", .jnum 0)]) = false := by
  refine ⟨?_, ?_, ?_, ?_⟩
  · exact falsy_position_fields_skipped.1 2
      [("symbol", .jstr "TCS"), ("qty", .jnum 0), ("avgPrice", .jnum 100)]
      (Or.inr (Or.inl rfl))
  · exact falsy_position_fields_skipped.1 2
      [("symbol", .jstr "TCS"), ("qty", .jnum 10), ("avgPrice", .jnum 0)]
      (Or.inr (Or.inr rfl))
  · exact falsy_position_fields_skipped.1 2
      [("symbol", .jstr ""), ("qty", .jnum 10), ("avgPrice", .jnum 100)]
      (Or.inl rfl)
  · exact falsy_position_fields_skipped.2.2.1
      [("symbol", .jstr "TCS"), ("qty", .jnum 10), ("avgPrice", .jnum 0)]
      (fun v hv => Option.noConfusion hv)
      (fun v hv => by injection hv with h; rw [← h]; rfl)
      (fun v hv => Option.noConfusion hv)

/-- Claim C8: fetched positions are accepted in either upstream shape — a
bare list, or a list nested under a `data` key — and every other response
shape normalizes to the empty list. -/
theorem positions_accept_list_or_data_else_empty :
    (∀ xs : List JVal, normalize_positions (.jarr xs) = xs)
    ∧ (∀ (fs : List (String × JVal)) (xs : List JVal),
        dictFind fs "data" = some (.jarr xs) → normalize_positions (.jobj fs) = xs)
    ∧ (∀ r : JVal, listShaped r = false → normalize_positions r = []) := by
  refine ⟨fun xs => rfl, ?_, ?_⟩
  · intro fs xs h
    simp [normalize_positions, h]
  · intro r h
    cases r with
    | jarr xs => simp [listShaped] at h
    | jobj fs =>
      simp only [listShaped] at h
      simp only [normalize_positions]
      cases hd : dictFind fs "data" with
      | none => rfl
      | some v => cases v <;> simp_all
    | jnull => rfl
    | jbool b => rfl
    | jnum q => rfl
    | jstr s => rfl

/-- Claim C8 witness: a `data`-nested list is unwrapped and a bare number
normalizes to the empty list. -/
theorem positions_accept_list_or_data_else_empty_witness :
    normalize_positions (.jobj [("data", .jarr [tcsPosition])]) = [tcsPosition]
    ∧ normalize_positions (.jnum 5) = [] :=
  ⟨positions_accept_list_or_data_else_empty.2.1 [("data", .jarr [tcsPosition])] [tcsPosition] rfl,
   positions_accept_list_or_data_else_empty.2.2 (.jnum 5) rfl⟩

end AutoSellWorker

end Trade

namespace Trade

namespace KotakClient

lemma hasHeader_append (hs ts : List (String × String)) (n : String) :
    hasHeader (hs ++ ts) n = (hasHeader hs n || hasHeader ts n) := by
  simp [hasHeader, List.any_append]

lemma emittedAuth_withClientCode (e : KotakEnv) (hs : List (String × String)) :
    emittedAuth (withClientCode e hs) = emittedAuth hs := by
  unfold withClientCode
  split
  · rfl
  · unfold emittedAuth
    refine List.filter_congr ?_
    intro n hn
    fin_cases hn <;> simp [hasHeader_append, hasHeader]

/-- Claim C4: header resolution emits exactly the auth header of the selected
mode and never one of an unselected mode, and it fails (with the
configuration error) exactly when the selected mode's credential is empty or
the mode is unrecognized. -/
theorem auth_headers_exclusive_and_fail_iff :
    ∀ e : KotakEnv,
      isOkE (auth_headers e) = goodConfig e
      ∧ ∀ hs, auth_headers e = .ok hs → emittedAuth hs = [modeHeader e.auth_mode] := by
  intro e
  by_cases h1 : e.auth_mode = "apikey"
  · by_cases h2 : e.api_key = ""
    · refine ⟨by simp [auth_headers, isOkE, goodConfig, h1, h2], ?_⟩
      intro hs hok
      simp [auth_headers, h1, h2] at hok
    · refine ⟨by simp [auth_headers, isOkE, goodConfig, h1, h2], ?_⟩
      intro hs hok
      simp [auth_headers, h1, h2] at hok
      rw [← hok, emittedAuth_withClientCode, h1]
      simp [emittedAuth, hasHeader, baseHeaders, authHeaderNames, modeHeader]
  · by_cases h3 : e.auth_mode = "bearer"
    · by_cases h2 : e.access_token = ""
      · refine ⟨by simp [auth_headers, isOkE, goodConfig, h1, h2, h3], ?_⟩
        intro hs hok
        simp [auth_headers, h1, h2, h3] at hok
      · refine ⟨by simp [auth_headers, isOkE, goodConfig, h1, h2, h3], ?_⟩
        intro hs hok
        simp [auth_headers, h1, h2, h3] at hok
        rw [← hok, emittedAuth_withClientCode, h3]
        simp [emittedAuth, hasHeader, baseHeaders, authHeaderNames, modeHeader]
    · by_cases h4 : e.auth_mode = "internal"
      · by_cases h2 : e.internal_key = ""
        · refine ⟨by simp [auth_headers, isOkE, goodConfig, h1, h2, h3, h4], ?_⟩
          intro hs hok
          simp [auth_headers, h1, h2, h3, h4] at hok
        · refine ⟨by simp [auth_headers, isOkE, goodConfig, h1, h2, h3, h4], ?_⟩
          intro hs hok
          simp [auth_headers, h1, h2, h3, h4] at hok
          rw [← hok, emittedAuth_withClientCode, h4]
          simp [emittedAuth, hasHeader, baseHeaders, authHeaderNames, modeHeader]
      · refine ⟨by simp [auth_headers, isOkE, goodConfig, h1, h3, h4], ?_⟩
        intro hs hok
        simp [auth_headers, h1, h3, h4] at hok

/-- Claim C4 witness: in bearer mode with a non-empty token the emitted auth
header set is exactly the bearer header. -/
theorem auth_headers_exclusive_and_fail_iff_witness :
    emittedAuth (baseHeaders ++ [("authorization", "Bearer " ++ "tok")])
      = [modeHeader "bearer"] :=
  (auth_headers_exclusive_and_fail_iff envBearer).2
    (baseHeaders ++ [("authorization", "Bearer " ++ "tok")]) rfl

/-- Claim C9 counterexample: with an API key as the only credential present,
the diagnostic variant produces two attempts, not exactly one per present
credential type. -/
theorem attempts_api_key_yields_two :
    (attempts envApiOnly).map Prod.fst = ["apikey", "x-api-key"]
    ∧ credTypesPresent envApiOnly = 1
    ∧ (attempts envApiOnly).length ≠ credTypesPresent envApiOnly := by
  refine ⟨rfl, rfl, ?_⟩
  decide

/-- Claim C9 (amended): the diagnostic variant produces the ordered list of
viable attempts — one tagged attempt for a present bearer token, two for a
present API key (headers `apikey` and `x-api-key`), one for a present
internal key, in that order — and appends the client-code header to every
attempt exactly when a client code is configured (the embedding is a pure
function of the configuration, so no state is mutated). -/
theorem attempts_ordered_tagged_with_client_code :
    ∀ e : KotakEnv,
      ((attempts e).map Prod.fst =
        (if e.access_token = "" then [] else ["bearer"])
          ++ (if e.api_key = "" then [] else ["apikey", "x-api-key"])
          ++ (if e.internal_key = "" then [] else ["Internal-Key"]))
      ∧ (∀ a ∈ attempts e, e.client_code ≠ "" →
          a.2.getLast? = some ("x-client-code", e.client_code))
      ∧ (∀ a ∈ attempts e, e.client_code = "" →
          hasHeader a.2 "x-client-code" = false) := by
  intro e
  refine ⟨?_, ?_, ?_⟩
  · unfold attempts
    by_cases hc : e.client_code = "" <;>
      by_cases ha : e.access_token = "" <;>
      by_cases hk : e.api_key = "" <;>
      by_cases hi : e.internal_key = "" <;>
      simp [hc, ha, hk, hi]
  · intro a ha hc
    unfold attempts at ha
    rw [if_neg hc] at ha
    rcases List.mem_map.mp ha with ⟨b, _, rfl⟩
    simp
  · intro a ha hc
    unfold attempts at ha
    rw [if_pos hc] at ha
    rcases List.mem_append.mp ha with h | h
    · rcases List.mem_append.mp h with h | h
      · split at h
        · cases h
        · rcases List.mem_singleton.mp h with rfl
          simp [hasHeader, baseHeaders]
      · split at h
        · cases h
        · rcases List.mem_cons.mp h with rfl | h
          · simp [hasHeader, baseHeaders]
          · rcases List.mem_singleton.mp h with rfl
            simp [hasHeader, baseHeaders]
    · split at h
      · cases h
      · rcases List.mem_singleton.mp h with rfl
        simp [hasHeader, baseHeaders]

/-- Claim C9 witness: with all three credentials and client code `CC`, the
tags come out in order and the first attempt ends with the client-code
header. -/
theorem attempts_ordered_tagged_with_client_code_witness :
    (attempts envAllCreds).map Prod.fst = ["bearer", "apikey", "x-api-key", "Internal-Key"]
    ∧ (baseHeaders ++ [("authorization", "Bearer t")]
        ++ [("x-client-code", "CC")]).getLast? = some ("x-client-code", "CC") := by
  constructor
  · exact ((attempts_ordered_tagged_with_client_code envAllCreds).1).trans (by rfl)
  · exact (attempts_ordered_tagged_with_client_code envAllCreds).2.1
      ("bearer", baseHeaders ++ [("authorization", "Bearer t")] ++ [("x-client-code", "CC")])
      (by decide) (by decide)

end KotakClient

end Trade

namespace Trade

namespace TokenStore

/-- Claim C5 counterexample: an entry stored with expiry 5, queried at
`now = 5` — the expiry is not greater than `now`, yet the stored value is
returned, because the code only discards entries with `expiry < now`. -/
theorem get_token_boundary_counterexample :
    ¬ ((5 : ℚ) > 5)
    ∧ get_token (set_token [] "a" "v" (some 5) 0) "a" 5 = some "v" := by
  refine ⟨lt_irrefl 5, ?_⟩
  have h : get_token (set_token [] "a" "v" (some 5) 0) "a" 5 =
      if (5 : ℚ) ≠ 0 ∧ (5 : ℚ) < 5 then none else some "v" := rfl
  rw [h]
  norm_num

/-- Claim C5 (amended): `get_token` returns absent for any name never stored
and for any stored name whose expiry has strictly passed (`expiry < now`),
independently of the stored value; it returns the stored value exactly when
the entry is present and `expiry ≥ now`. -/
theorem get_token_present_and_unexpired :
    (∀ (name : String) (now : ℚ), get_token [] name now = none)
    ∧ (∀ (st : Store) (name : String) (now : ℚ),
        find st name = none → get_token st name now = none)
    ∧ (∀ (st : Store) (name value : String) (expiry : Option ℚ) (now1 now2 : ℚ),
        0 ≤ now1 →
        get_token (set_token st name value expiry now1) name now2 =
          if effExpiry expiry now1 < now2 then none else some value) := by
  refine ⟨fun name now => rfl, ?_, ?_⟩
  · intro st name now h
    unfold get_token
    rw [h]
  · intro st name value expiry now1 now2 h0
    have hne : effExpiry expiry now1 ≠ 0 := by
      cases expiry with
      | none => simp only [effExpiry]; intro h; linarith
      | some v =>
        simp only [effExpiry]
        split
        · intro h; linarith
        · next h => exact h
    have h : get_token (set_token st name value expiry now1) name now2 =
        if effExpiry expiry now1 ≠ 0 ∧ effExpiry expiry now1 < now2 then none
        else some value := by
      unfold get_token set_token find
      rw [if_pos rfl]
    rw [h]
    by_cases hlt : effExpiry expiry now1 < now2
    · rw [if_pos ⟨hne, hlt⟩, if_pos hlt]
    · rw [if_neg (fun hc => hlt hc.2), if_neg hlt]

/-- Claim C5 amended witness: storing under expiry 5 at time 0 and reading
back at time 4 returns the value. -/
theorem get_token_present_and_unexpired_witness :
    get_token (set_token [] "a" "v" (some 5) 0) "a" 4 = some "v" := by
  have h := get_token_present_and_unexpired.2.2 [] "a" "v" (some 5) 0 4 (by norm_num)
  rw [h]
  norm_num [effExpiry]

end TokenStore

namespace KotakClient

/-- Claim C6: funds extraction tries the ordered candidate field list first
at top level, then under `data`, then under `limits`; it returns 100 for
each of the three sample payloads, earlier locations win over later ones,
and when nothing matches it fails with an error naming exactly the offending
payload. -/
theorem extract_funds_ordered_candidates :
    extract_funds_value (.jobj [("available", .jnum 100)]) = .ok 100
    ∧ extract_funds_value (.jobj [("data", .jobj [("cash", .jnum 100)])]) = .ok 100
    ∧ extract_funds_value (.jobj [("limits", .jobj [("netCash", .jnum 100)])]) = .ok 100
    ∧ extract_funds_value (.jobj [("unrelated", .jnum 1)])
        = .error (.jobj [("unrelated", .jnum 1)])
    ∧ extract_funds_value (.jobj [("cash", .jnum 1), ("data", .jobj [("cash", .jnum 2)]),
        ("limits", .jobj [("cash", .jnum 3)])]) = .ok 1
    ∧ extract_funds_value (.jobj [("data", .jobj [("cash", .jnum 2)]),
        ("limits", .jobj [("cash", .jnum 3)])]) = .ok 2
    ∧ (∀ (d e : JVal), extract_funds_value d = .error e → e = d) := by
  refine ⟨rfl, rfl, rfl, rfl, rfl, rfl, ?_⟩
  intro d e h
  cases d with
  | jnum q => exact Except.noConfusion h
  | jbool b => exact Except.noConfusion h
  | jnull => injection h with h2; exact h2.symm
  | jstr s => injection h with h2; exact h2.symm
  | jarr xs => injection h with h2; exact h2.symm
  | jobj fs =>
    have hred : extract_funds_value (.jobj fs) =
        (match fundsCandidate fs with
         | some v =>
           (match jToFloat v with
            | some q => Except.ok q
            | none => Except.error (JVal.jobj fs))
         | none => Except.error (JVal.jobj fs)) := rfl
    rw [hred] at h
    cases hc : fundsCandidate fs with
    | none =>
      rw [hc] at h
      injection h with h2
      exact h2.symm
    | some v =>
      rw [hc] at h
      have h2 : (match jToFloat v with
                 | some q => Except.ok q
                 | none => Except.error (JVal.jobj fs)) = Except.error e := h
      cases hf : jToFloat v with
      | some q => rw [hf] at h2; exact Except.noConfusion h2
      | none =>
        rw [hf] at h2
        injection h2 with h3
        exact h3.symm

/-- Claim C6 witness: the shape error raised on the unmatched payload names
that payload itself. -/
theorem extract_funds_ordered_candidates_witness :
    (JVal.jobj [("unrelated", .jnum 1)]) = .jobj [("unrelated", .jnum 1)] :=
  extract_funds_ordered_candidates.2.2.2.2.2.2
    (.jobj [("unrelated", .jnum 1)]) (.jobj [("unrelated", .jnum 1)]) rfl

lemma pyOrJ_truthy (a b : JVal) (h : jTruthy a = true) : pyOrJ a b = a := by
  simp [pyOrJ, h]

lemma pyOrJ_falsy (a b : JVal) (h : jTruthy a = false) : pyOrJ a b = b := by
  simp [pyOrJ, h]

lemma dictFind_append (d1 d2 : List (String × JVal)) (k : String) :
    dictFind (d1 ++ d2) k =
      (match dictFind d1 k with
       | some v => some v
       | none => dictFind d2 k) := by
  induction d1 with
  | nil => rfl
  | cons p rest ih =>
    cases p with
    | mk a v =>
      simp only [List.cons_append, dictFind]
      split
      · rfl
      · exact ih

/-- Claim C7 counterexample: two order inputs that differ only in which
quantity synonym carries the value 0 produce different wire payloads — the
canonical slot omits the field, the synonym slot emits `quantity: 0` —
because the synonym collapse uses Python `or`, which drops falsy values. -/
theorem normalize_order_zero_quantity_asymmetry :
    dictFind (normalize_order srcQuantityZero) "quantity" = none
    ∧ dictFind (normalize_order srcQtyZero) "quantity" = some (.jnum 0)
    ∧ normalize_order srcQuantityZero ≠ normalize_order srcQtyZero := by
  refine ⟨rfl, rfl, ?_⟩
  intro h
  have e1 : dictFind (normalize_order srcQuantityZero) "quantity" = none := rfl
  rw [h] at e1
  have e2 : dictFind (normalize_order srcQtyZero) "quantity" = some (.jnum 0) := rfl
  rw [e2] at e1
  exact Option.noConfusion e1

/-- Claim C7 (amended): for order inputs that differ only in which synonym of
each pair carries a truthy value, the outbound wire payload is identical —
with falsy values (such as quantity 0) the synonym slots are not equivalent;
the payload only ever carries the canonical field names of each pair, every
`None`-valued field is stripped from it, and the two sample inputs of the
spec normalize identically. -/
theorem normalize_order_synonym_invariants :
    (∀ (d : List (String × JVal)) (v q : JVal),
      noSynonymKeys d → jTruthy v = true → jTruthy q = true →
      normalize_order (d ++ [("transaction_type", v), ("qty", q)]) =
        normalize_order (d ++ [("side", v), ("quantity", q)]))
    ∧ (∀ (src : List (String × JVal)) (kv : String × JVal),
        kv ∈ normalize_order src → kv.1 ∈ canonicalOrderKeys ∧ jIsNull kv.2 = false)
    ∧ normalize_order [("transaction_type", .jstr "BUY"), ("qty", .jnum 5)] =
        normalize_order [("side", .jstr "BUY"), ("quantity", .jnum 5)] := by
  refine ⟨?_, ?_, ?_⟩
  · intro d v q hno hv hq
    obtain ⟨h1, h2, h3, h4⟩ := hno
    have g : ∀ k : String, "transaction_type" ≠ k → "qty" ≠ k → "side" ≠ k →
        "quantity" ≠ k →
        dictFind (d ++ [("transaction_type", v), ("qty", q)]) k =
          dictFind (d ++ [("side", v), ("quantity", q)]) k := by
      intro k k1 k2 k3 k4
      rw [dictFind_append, dictFind_append]
      cases hdk : dictFind d k with
      | some w => rfl
      | none =>
        show dictFind [("transaction_type", v), ("qty", q)] k =
          dictFind [("side", v), ("quantity", q)] k
        simp [dictFind, k1, k2, k3, k4]
    have ha1 : dictFind (d ++ [("transaction_type", v), ("qty", q)]) "transaction_type"
        = some v := by rw [dictFind_append, h1]; rfl
    have ha2 : dictFind (d ++ [("transaction_type", v), ("qty", q)]) "side" = none := by
      rw [dictFind_append, h2]; rfl
    have ha3 : dictFind (d ++ [("transaction_type", v), ("qty", q)]) "quantity" = none := by
      rw [dictFind_append, h3]; rfl
    have ha4 : dictFind (d ++ [("transaction_type", v), ("qty", q)]) "qty" = some q := by
      rw [dictFind_append, h4]; rfl
    have hb1 : dictFind (d ++ [("side", v), ("quantity", q)]) "transaction_type" = none := by
      rw [dictFind_append, h1]; rfl
    have hb2 : dictFind (d ++ [("side", v), ("quantity", q)]) "side" = some v := by
      rw [dictFind_append, h2]; rfl
    have hb3 : dictFind (d ++ [("side", v), ("quantity", q)]) "quantity" = some q := by
      rw [dictFind_append, h3]; rfl
    have hb4 : dictFind (d ++ [("side", v), ("quantity", q)]) "qty" = none := by
      rw [dictFind_append, h4]; rfl
    simp only [normalize_order, pyGet, pyGetD]
    rw [ha1, ha2, ha3, ha4, hb1, hb2, hb3, hb4]
    rw [g "symbol" (by decide) (by decide) (by decide) (by decide),
        g "exchange" (by decide) (by decide) (by decide) (by decide),
        g "product" (by decide) (by decide) (by decide) (by decide),
        g "price" (by decide) (by decide) (by decide) (by decide),
        g "order_type" (by decide) (by decide) (by decide) (by decide),
        g "validity" (by decide) (by decide) (by decide) (by decide),
        g "disclosed_quantity" (by decide) (by decide) (by decide) (by decide),
        g "trigger_price" (by decide) (by decide) (by decide) (by decide),
        g "tag" (by decide) (by decide) (by decide) (by decide)]
    simp only [Option.getD_some, Option.getD_none]
    rw [pyOrJ_truthy v JVal.jnull hv, pyOrJ_truthy q JVal.jnull hq,
        pyOrJ_falsy JVal.jnull v rfl, pyOrJ_falsy JVal.jnull q rfl]
  · intro src kv h
    unfold normalize_order at h
    rw [List.mem_filter] at h
    obtain ⟨hm, hn⟩ := h
    refine ⟨?_, by simpa using hn⟩
    simp only [List.mem_cons, List.not_mem_nil, or_false] at hm
    rcases hm with h | h | h | h | h | h | h | h | h | h | h <;> subst h <;>
      simp [canonicalOrderKeys]
  · rfl

/-- Claim C7 amended witness: the sample pair of the spec — `transaction_type
BUY` with `qty 5` versus `side BUY` with `quantity 5` — normalizes to the
same payload (the empty prefix has no synonym keys, BUY and 5 are truthy). -/
theorem normalize_order_synonym_invariants_witness :
    normalize_order ([] ++ [("transaction_type", .jstr "BUY"), ("qty", .jnum 5)]) =
      normalize_order ([] ++ [("side", .jstr "BUY"), ("quantity", .jnum 5)]) :=
  normalize_order_synonym_invariants.1 [] (.jstr "BUY") (.jnum 5)
    ⟨rfl, rfl, rfl, rfl⟩ rfl rfl

end KotakClient

end Trade
